import Mathlib

/-!
Verification of `converter.py` (convert2avif): a batch image-to-AVIF converter.

We give a shallow embedding of the pure core of the program:
string helpers mirroring Python's `pathlib` (`Path.suffix`, `Path.stem`),
`str.lower`, `str.strip`; the recognized-extension filter and discovery
function `collect_images`; the color-mode normalization `prepare_mode`;
the encoder-parameter assembly `save_avif`; the per-item conversion
`convert_one` including the `_2`, `_3`, ... collision probe; and the
batch loop `worker` with its progress emissions and final summary.

Filesystem and codec effects are modelled by an explicit `World` record
(decode outcome per path, path-existence predicate, encode outcome), so
every Python `try/except` becomes an `Except` value.  The unbounded
`while True` collision probe is modelled with explicit fuel; theorems
that depend on the probe terminating carry that as a hypothesis.
-/

/-! ### Python string/path helpers -/

/-- Python `str.lower()` restricted to ASCII (extensions are ASCII). -/
def pyLower (s : String) : String := ⟨s.data.map Char.toLower⟩

/-- Python `str.strip()`: drop whitespace from both ends. -/
def pyStrip (s : String) : String :=
  ⟨((s.data.dropWhile Char.isWhitespace).reverse.dropWhile Char.isWhitespace).reverse⟩

/-- Python `pathlib.PurePath.suffix` of a final component `name`:
`name[i:]` where `i = name.rfind('.')`, provided `0 < i < len(name) - 1`,
else the empty string. -/
def pySuffix (name : String) : String :=
  let rev := name.data.reverse
  let j := rev.findIdx (· == '.')
  if 0 < j ∧ j < rev.length - 1 then ⟨(rev.take (j+1)).reverse⟩ else ""

/-- Python `pathlib.PurePath.stem` of a final component `name`:
`name[:i]` where `i = name.rfind('.')`, provided `0 < i < len(name) - 1`,
else `name` itself. -/
def pyStem (name : String) : String :=
  let rev := name.data.reverse
  let j := rev.findIdx (· == '.')
  if 0 < j ∧ j < rev.length - 1 then ⟨(rev.drop (j+1)).reverse⟩ else name

/-- A `pathlib.Path`, as its sequence of components (`PurePath.parts`). -/
structure PyPath where
  parts : List String
deriving DecidableEq, Repr

/-- Python `Path.name`: the final component. -/
def PyPath.name (p : PyPath) : String := p.parts.getLastD ""

/-- Python `Path.stem`: final component without its extension. -/
def PyPath.stem (p : PyPath) : String := pyStem p.name

/-- Python `str(path)`: the components joined by `/` (POSIX flavour). -/
def PyPath.str (p : PyPath) : String := "/".intercalate p.parts

/-- The order `sorted()` uses on `Path` objects: `PurePath` comparison,
which on POSIX compares the path strings lexicographically by code point. -/
def pathLe (p q : PyPath) : Bool := decide (p.str.data ≤ q.str.data)

/-! ### Discovery (`collect_images`, converter.py lines 36-44) -/

/-- The set `COMMON_EXTS = {".jpg", ".jpeg", ".png", ".webp", ".bmp", ".tif", ".tiff", ".gif"}`. -/
def COMMON_EXTS : List String :=
  [".jpg", ".jpeg", ".png", ".webp", ".bmp", ".tif", ".tiff", ".gif"]

/-- The test `p.suffix.lower() in COMMON_EXTS`. -/
def hasImageExt (p : PyPath) : Bool := COMMON_EXTS.contains (pyLower (pySuffix p.name))

/-- The filesystem as seen by discovery: the finite lists of regular files
and of directories. -/
structure FS where
  files : List PyPath
  dirs : List PyPath

/-- Python `p.is_file()`. -/
def FS.isFile (fs : FS) (p : PyPath) : Bool := fs.files.contains p

/-- Python `p.is_dir()`. -/
def FS.isDir (fs : FS) (p : PyPath) : Bool := fs.dirs.contains p

/-- Whether `q` is a strict descendant of `src` (any depth below `src`). -/
def PyPath.isUnder (q src : PyPath) : Bool :=
  src.parts.isPrefixOf q.parts && decide (src.parts.length < q.parts.length)

/-- Whether `q` is an immediate child of `src`. -/
def PyPath.isChildOf (q src : PyPath) : Bool :=
  src.parts.isPrefixOf q.parts && decide (q.parts.length = src.parts.length + 1)

/-- Python `src.rglob("*")`: every entry (file or directory) strictly below `src`. -/
def FS.rglobStar (fs : FS) (src : PyPath) : List PyPath :=
  (fs.files ++ fs.dirs).filter (fun q => q.isUnder src)

/-- Python `src.glob("*")`: every entry (file or directory) directly inside `src`. -/
def FS.globStar (fs : FS) (src : PyPath) : List PyPath :=
  (fs.files ++ fs.dirs).filter (fun q => q.isChildOf src)

/-- Function `collect_images` (converter.py lines 38-44). -/
def collect_images (fs : FS) (src : PyPath) (recursive : Bool) : List PyPath :=
  if fs.isFile src then
    (if hasImageExt src then [src] else [])
  else if !fs.isDir src then
    []
  else
    let it := if recursive then fs.rglobStar src else fs.globStar src
    (it.filter (fun p => fs.isFile p && hasImageExt p)).insertionSort
      (fun p q => pathLe p q = true)

/-! ### Images, mode normalization, encoder parameters -/

/-- A decoded PIL image: its mode string and the optional `info` payloads
the program reads (`"exif"` and `"icc_profile"` byte strings). -/
structure PILImage where
  mode : String
  exif : Option (List Nat)
  icc_profile : Option (List Nat)
deriving DecidableEq, Repr

/-- Python `im.convert(m)`: same image data, new mode (info is preserved). -/
def PILImage.convert (im : PILImage) (m : String) : PILImage := { im with mode := m }

/-- Function `prepare_mode` (converter.py lines 46-47). -/
def prepare_mode (im : PILImage) : PILImage :=
  if im.mode = "RGBA" ∨ im.mode = "LA" then im.convert "RGBA" else im.convert "RGB"

/-- The keyword arguments `save_avif` passes to `im.save`. -/
structure AvifParams where
  quality : Int
  speed : Int
  lossless : Bool
  exif : Option (List Nat)
  icc_profile : Option (List Nat)
deriving DecidableEq, Repr

/-- Function `save_avif` (converter.py lines 49-55), up to the `im.save` call:
the parameter dict it assembles. -/
def save_avif (im : PILImage) (quality speed : Int) (lossless keepExif : Bool) : AvifParams :=
  { quality := quality
    speed := speed
    lossless := lossless
    exif := if keepExif && im.exif.isSome then im.exif else none
    icc_profile := im.icc_profile }

/-! ### Target filename and collision probe (converter.py lines 64-73) -/

/-- Line 64: `stem = f"{prefix}_{src.stem}" if prefix else src.stem`.
`pref` models the Python `prefix` argument; empty string is falsy. -/
def stemWithPref (pref : Option String) (stem : String) : String :=
  match pref with
  | some p => if p ≠ "" then p ++ "_" ++ stem else stem
  | none => stem

/-- The computed target filename `{stem}.avif` for a given prefix option. -/
def outName (pref : Option String) (stem : String) : String :=
  stemWithPref pref stem ++ ".avif"

/-- Line 225: `prefix = self.prefix_var.get().strip() or None`. -/
def normPref (raw : String) : Option String :=
  let t := pyStrip raw
  if t = "" then none else some t

/-- The string `str(dst_dir / f"{stem}.avif")`. -/
def targetName (dstDir stm : String) : String := dstDir ++ "/" ++ stm ++ ".avif"

/-- The string `str(dst_dir / f"{stem}_{n}.avif")`. -/
def candName (dstDir stm : String) (n : Nat) : String :=
  dstDir ++ "/" ++ stm ++ "_" ++ Nat.repr n ++ ".avif"

/-- The `while True` probe of lines 67-73, with explicit fuel standing for
the unbounded loop: starting at counter `n`, return the first candidate
`{stem}_{n}.avif` that does not exist. `none` means fuel ran out (the
Python loop would still be running). -/
def probe (ex : String → Bool) (dstDir stm : String) : Nat → Nat → Option String
  | 0, _ => none
  | fuel+1, n =>
    if ex (candName dstDir stm n) then probe ex dstDir stm fuel (n+1)
    else some (candName dstDir stm n)

/-- Lines 65-73: the resolved output path, starting from `{stem}.avif` and
probing `_2`, `_3`, ... when it exists and overwrite is off. -/
def resolveOut (ex : String → Bool) (dstDir stm : String) (overwrite : Bool)
    (fuel : Nat) : Option String :=
  let out := targetName dstDir stm
  if ex out && !overwrite then probe ex dstDir stm fuel 2 else some out

/-! ### Per-item conversion and the batch loop -/

/-- The effectful surroundings of one conversion: what decoding each source
path yields, which output paths exist, and what encoding to a path yields.
Exceptions are `Except.error` carrying the exception text. -/
structure World where
  decodeOf : PyPath → Except String PILImage
  pathExists : String → Bool
  encodeOf : AvifParams → String → Except String Unit

/-- Function `convert_one` (converter.py lines 57-78).  Returns `some r` where `r`
is the Python return value (`none` = success, `some msg` = failure), or
`none` when the collision probe ran out of fuel (the Python loop spins). -/
def convert_one (w : World) (src : PyPath) (dstDir : String) (overwrite : Bool)
    (quality speed : Int) (lossless keepExif : Bool) (pref : Option String)
    (fuel : Nat) : Option (Option String) :=
  match w.decodeOf src with
  | .error e => some (some ("Skip " ++ src.name ++ ": " ++ e))
  | .ok im =>
    let im2 := prepare_mode im
    let stm := stemWithPref pref src.stem
    match resolveOut w.pathExists dstDir stm overwrite fuel with
    | none => none
    | some out =>
      match w.encodeOf (save_avif im2 quality speed lossless keepExif) out with
      | .ok _ => some none
      | .error e => some (some ("Failed " ++ src.name ++ ": " ++ e))

/-- What one run of `worker` (converter.py lines 236-244) produces:
the error count, the progress emissions (1-based index, total) in order,
and the per-item return values of `convert_one`, in order. -/
structure BatchOut where
  errors : Nat
  progress : List (Nat × Nat)
  results : List (Option String)
deriving DecidableEq, Repr

/-- The loop body of `worker`, processing `items` with 1-based counter `i`:
each item is converted, a progress emission `(i, total)` is recorded, and
a non-`None` message increments the error count.  `none` propagates fuel
exhaustion of the collision probe. -/
def runBatch (w : World) (dstDir : String) (overwrite : Bool) (quality speed : Int)
    (lossless keepExif : Bool) (pref : Option String) (fuel : Nat) (total : Nat) :
    List PyPath → Nat → Option BatchOut
  | [], _ => some ⟨0, [], []⟩
  | item :: rest, i =>
    match convert_one w item dstDir overwrite quality speed lossless keepExif pref fuel with
    | none => none
    | some res =>
      match runBatch w dstDir overwrite quality speed lossless keepExif pref fuel total rest (i+1) with
      | none => none
      | some out =>
        some ⟨(if res.isSome then 1 else 0) + out.errors,
              (i, total) :: out.progress,
              res :: out.results⟩

/-- Function `worker` (converter.py lines 236-244): run the batch over the full item
list with counter starting at 1. -/
def worker (w : World) (items : List PyPath) (dstDir : String) (overwrite : Bool)
    (quality speed : Int) (lossless keepExif : Bool) (pref : Option String)
    (fuel : Nat) : Option BatchOut :=
  runBatch w dstDir overwrite quality speed lossless keepExif pref fuel
    items.length items 1

/-- Line 243: `f"Done. {len(items)-errors} succeeded, {errors} failed."` -/
def summary (n errors : Nat) : Nat × Nat := (n - errors, errors)

/-! ## Claims -/

/-- Claim C7: the computed target filename is `{pfx}_{stem}.avif` when a
(non-empty) prefix was supplied, and `{stem}.avif` when no prefix was
supplied (converter.py lines 64-65). -/
theorem claim_C7 (stem : String) :
    (∀ p : String, p ≠ "" → outName (some p) stem = p ++ "_" ++ stem ++ ".avif") ∧
    outName none stem = stem ++ ".avif" := by
  refine ⟨fun p hp => ?_, rfl⟩
  simp [outName, stemWithPref, hp]

/-- Witness for C7 at the spec's own example: prefix `"thumb"`, stem `"a"`. -/
theorem claim_C7_witness :
    ("thumb" : String) ≠ "" ∧
    outName (some "thumb") "a" = "thumb" ++ "_" ++ "a" ++ ".avif" ∧
    outName none "a" = "a" ++ ".avif" :=
  ⟨by decide, (claim_C7 "a").1 "thumb" (by decide), (claim_C7 "a").2⟩

/-- Claim C10: an empty or whitespace-only prefix string is normalized to
absent (`prefix_var.get().strip() or None`, line 225), so it behaves
identically to supplying no prefix; and the falsy-prefix branch of the
filename computation (line 64) yields `{stem}.avif` with no leading
underscore even for an un-normalized empty prefix. -/
theorem claim_C10 (s : String) (h : pyStrip s = "") :
    normPref s = none ∧
    (∀ stem, outName (normPref s) stem = outName none stem) ∧
    (∀ stem, outName (some "") stem = stem ++ ".avif") := by
  have hn : normPref s = none := by simp [normPref, h]
  exact ⟨hn, fun stem => by rw [hn], fun stem => rfl⟩

/-- Witness for C10 at the whitespace-only prefix string `"   "`. -/
theorem claim_C10_witness :
    pyStrip "   " = "" ∧ normPref "   " = none ∧
    outName (normPref "   ") "pic" = outName none "pic" ∧
    outName (some "") "pic" = "pic" ++ ".avif" :=
  ⟨by decide, (claim_C10 "   " (by decide)).1,
   (claim_C10 "   " (by decide)).2.1 "pic",
   (claim_C10 "   " (by decide)).2.2 "pic"⟩

/-- Claim C4: the encoder receives the EXIF bytes iff keep-metadata is
enabled and the source carries an EXIF payload; an ICC profile is always
passed through regardless of that flag; quality, speed, and the lossless
flag are always passed (converter.py lines 49-55). -/
theorem claim_C4 (im : PILImage) (quality speed : Int) (lossless keepExif : Bool) :
    (∀ e, (save_avif im quality speed lossless keepExif).exif = some e ↔
      (keepExif = true ∧ im.exif = some e)) ∧
    (save_avif im quality speed lossless keepExif).icc_profile = im.icc_profile ∧
    (save_avif im quality speed lossless keepExif).quality = quality ∧
    (save_avif im quality speed lossless keepExif).speed = speed ∧
    (save_avif im quality speed lossless keepExif).lossless = lossless := by
  refine ⟨fun e => ?_, rfl, rfl, rfl, rfl⟩
  cases keepExif <;> cases him : im.exif <;> simp [save_avif, him]

/-- Claim C5: mode normalization sends the alpha-carrying mode `RGBA` and
the luminance-alpha mode `LA` to `RGBA`, every other mode to `RGB`, so the
output mode is always one of exactly those two (converter.py lines 46-47). -/
theorem claim_C5 (im : PILImage) :
    ((im.mode = "RGBA" ∨ im.mode = "LA") → (prepare_mode im).mode = "RGBA") ∧
    ((im.mode ≠ "RGBA" ∧ im.mode ≠ "LA") → (prepare_mode im).mode = "RGB") ∧
    ((prepare_mode im).mode = "RGBA" ∨ (prepare_mode im).mode = "RGB") := by
  by_cases h : im.mode = "RGBA" ∨ im.mode = "LA"
  · simp only [prepare_mode, PILImage.convert, if_pos h]
    tauto
  · simp only [prepare_mode, PILImage.convert, if_neg h]
    tauto

/-- Witness for C5: a luminance-alpha image goes to `RGBA`, a paletted
image goes to `RGB`. -/
theorem claim_C5_witness :
    (prepare_mode ⟨"LA", none, none⟩).mode = "RGBA" ∧
    (prepare_mode ⟨"P", none, none⟩).mode = "RGB" :=
  ⟨(claim_C5 ⟨"LA", none, none⟩).1 (Or.inr rfl),
   (claim_C5 ⟨"P", none, none⟩).2.1 ⟨by decide, by decide⟩⟩

/-- Claim C8: for a regular-file source, discovery returns `[src]` when its
lower-cased extension is recognized and `[]` otherwise; for a source that
is neither a regular file nor a directory it returns `[]` rather than an
error (converter.py lines 38-42). -/
theorem claim_C8 (fs : FS) (src : PyPath) (recursive : Bool) :
    (fs.isFile src = true →
      collect_images fs src recursive = if hasImageExt src then [src] else []) ∧
    (fs.isFile src = false → fs.isDir src = false →
      collect_images fs src recursive = []) := by
  constructor
  · intro h
    simp [collect_images, h]
  · intro h1 h2
    simp [collect_images, h1, h2]

/-- Witness for C8: a single recognized file source, an unrecognized file
source, and a nonexistent source. -/
theorem claim_C8_witness :
    collect_images ⟨[⟨["a.JPG"]⟩], []⟩ ⟨["a.JPG"]⟩ true =
      (if hasImageExt ⟨["a.JPG"]⟩ then [⟨["a.JPG"]⟩] else []) ∧
    collect_images ⟨[⟨["a.txt"]⟩], []⟩ ⟨["a.txt"]⟩ false =
      (if hasImageExt ⟨["a.txt"]⟩ then [⟨["a.txt"]⟩] else []) ∧
    collect_images ⟨[], []⟩ ⟨["ghost"]⟩ true = [] :=
  ⟨(claim_C8 ⟨[⟨["a.JPG"]⟩], []⟩ ⟨["a.JPG"]⟩ true).1 (by decide),
   (claim_C8 ⟨[⟨["a.txt"]⟩], []⟩ ⟨["a.txt"]⟩ false).1 (by decide),
   (claim_C8 ⟨[], []⟩ ⟨["ghost"]⟩ true).2 (by decide) (by decide)⟩

/-- The collision probe returns the first free candidate: if every counter
in `[n, k)` names an existing file, counter `k` names a free one, and the
fuel covers the distance, the probe starting at `n` answers `{stem}_{k}.avif`. -/
lemma probe_eq_first_free (ex : String → Bool) (d s : String) :
    ∀ (fuel n k : Nat), n ≤ k → k < n + fuel →
      (∀ j, j < k → n ≤ j → ex (candName d s j) = true) →
      ex (candName d s k) = false →
      probe ex d s fuel n = some (candName d s k)
  | 0, n, k, hnk, hlt, _, _ => absurd hlt (by omega)
  | fuel+1, n, k, hnk, hlt, hbusy, hfree => by
    by_cases h : n = k
    · subst h
      simp [probe, hfree]
    · have hnk' : n < k := lt_of_le_of_ne hnk h
      have hb : ex (candName d s n) = true := hbusy n hnk' le_rfl
      simp only [probe, hb, if_pos]
      exact probe_eq_first_free ex d s fuel (n+1) k (by omega) (by omega)
        (fun j hj1 hj2 => hbusy j hj1 (by omega)) hfree

/-- Claim C2: with overwrite disabled and the computed target existing, the
resolved output is `{stem}_{k}.avif` for the smallest `k ≥ 2` whose name
does not exist, and that path does not exist; when the target does not
exist it is used directly (and does not exist); with overwrite enabled the
computed target is used unchanged (converter.py lines 64-73). -/
theorem claim_C2 (ex : String → Bool) (d s : String) (fuel k : Nat)
    (hk : 2 ≤ k) (hfuel : k < 2 + fuel)
    (hbusy : ∀ j, j < k → 2 ≤ j → ex (candName d s j) = true)
    (hfree : ex (candName d s k) = false)
    (hex : ex (targetName d s) = true) :
    (resolveOut ex d s false fuel = some (candName d s k) ∧
      ex (candName d s k) = false) ∧
    (∀ (ex2 : String → Bool) (fl : Nat),
      resolveOut ex2 d s true fl = some (targetName d s)) ∧
    (∀ (ex3 : String → Bool) (fl : Nat), ex3 (targetName d s) = false →
      resolveOut ex3 d s false fl = some (targetName d s)) := by
  refine ⟨⟨?_, hfree⟩, fun ex2 fl => ?_, fun ex3 fl h3 => ?_⟩
  · simp only [resolveOut, hex, Bool.not_false, Bool.true_and, if_pos]
    exact probe_eq_first_free ex d s fuel 2 k hk hfuel hbusy hfree
  · simp [resolveOut]
  · simp [resolveOut, h3]

/-- Witness for C2: destination `o` holds `a.avif` and `a_2.avif`, so the
probe resolves to `a_3.avif`; with overwrite on, `a.avif` is kept. -/
theorem claim_C2_witness :
    (resolveOut (fun p => ["o/a.avif", "o/a_2.avif"].contains p) "o" "a" false 5 =
        some (candName "o" "a" 3) ∧
      (fun p => ["o/a.avif", "o/a_2.avif"].contains p) (candName "o" "a" 3) = false) ∧
    resolveOut (fun p => ["o/a.avif", "o/a_2.avif"].contains p) "o" "a" true 5 =
      some (targetName "o" "a") ∧
    resolveOut (fun _ => false) "o" "a" false 5 = some (targetName "o" "a") := by
  have h := claim_C2 (fun p => ["o/a.avif", "o/a_2.avif"].contains p) "o" "a" 5 3
    (by decide) (by decide) (by decide) (by decide) (by decide)
  exact ⟨h.1, h.2.1 _ 5, h.2.2 (fun _ => false) 5 (by decide)⟩

/-- Claim C3: for a directory source, discovery returns exactly the regular
files with a recognized (case-folded) extension — at any depth when
recursive, immediate children only when not — sorted lexicographically by
full path, and never a path with an unrecognized extension
(converter.py lines 38-44). -/
theorem claim_C3 (fs : FS) (src : PyPath) (recursive : Bool)
    (hnf : fs.isFile src = false) (hd : fs.isDir src = true) :
    (∀ p, p ∈ collect_images fs src recursive ↔
      (fs.isFile p = true ∧ hasImageExt p = true ∧
        (if recursive then p.isUnder src else p.isChildOf src) = true)) ∧
    (collect_images fs src recursive).Pairwise (fun p q => pathLe p q = true) ∧
    (∀ p, p ∈ collect_images fs src recursive → hasImageExt p = true) := by
  have hunfold : collect_images fs src recursive =
      ((if recursive then fs.rglobStar src else fs.globStar src).filter
        (fun p => fs.isFile p && hasImageExt p)).insertionSort
        (fun p q => pathLe p q = true) := by
    simp [collect_images, hnf, hd]
  have hmem : ∀ p, p ∈ collect_images fs src recursive ↔
      (fs.isFile p = true ∧ hasImageExt p = true ∧
        (if recursive then p.isUnder src else p.isChildOf src) = true) := by
    intro p
    rw [hunfold, (List.perm_insertionSort _ _).mem_iff, List.mem_filter]
    cases recursive <;>
      simp only [if_true, if_false, Bool.false_eq_true, Bool.and_eq_true,
        FS.rglobStar, FS.globStar, List.mem_filter, List.mem_append,
        FS.isFile, List.elem_iff, List.contains] <;>
      tauto
  refine ⟨hmem, ?_, fun p hp => ((hmem p).mp hp).2.1⟩
  rw [hunfold]
  haveI : IsTotal PyPath (fun p q => pathLe p q = true) :=
    ⟨fun p q => by simpa [pathLe] using le_total p.str.data q.str.data⟩
  haveI : IsTrans PyPath (fun p q => pathLe p q = true) :=
    ⟨fun p q r h1 h2 => by
      simp only [pathLe, decide_eq_true_eq] at h1 h2 ⊢
      exact le_trans h1 h2⟩
  exact List.sorted_insertionSort _ _

/-- A concrete filesystem for the discovery witnesses: directory `d` with a
recognized file `b.PNG`, an unrecognized `x.txt`, a subdirectory `sub`
holding `c.jpg`, and an unrelated directory `e`. -/
def fsW : FS :=
  { files := [⟨["d", "b.PNG"]⟩, ⟨["d", "x.txt"]⟩, ⟨["d", "sub", "c.jpg"]⟩, ⟨["e", "z.png"]⟩]
    dirs := [⟨["d"]⟩, ⟨["d", "sub"]⟩, ⟨["e"]⟩] }

/-- Witness for C3: on `fsW` with source `d`, the nested recognized file is
returned, the unrecognized `x.txt` is not, and the output is sorted. -/
theorem claim_C3_witness :
    (⟨["d", "sub", "c.jpg"]⟩ : PyPath) ∈ collect_images fsW ⟨["d"]⟩ true ∧
    ¬ (⟨["d", "x.txt"]⟩ : PyPath) ∈ collect_images fsW ⟨["d"]⟩ true ∧
    ¬ (⟨["d", "sub", "c.jpg"]⟩ : PyPath) ∈ collect_images fsW ⟨["d"]⟩ false ∧
    (collect_images fsW ⟨["d"]⟩ true).Pairwise (fun p q => pathLe p q = true) := by
  have h := claim_C3 fsW ⟨["d"]⟩ true (by decide) (by decide)
  have h' := claim_C3 fsW ⟨["d"]⟩ false (by decide) (by decide)
  refine ⟨(h.1 _).mpr ⟨by decide, by decide, by decide⟩, ?_, ?_, h.2.1⟩
  · intro hx
    have := ((h.1 _).mp hx).2.1
    exact absurd this (by decide)
  · intro hx
    have := ((h'.1 _).mp hx).2.2
    exact absurd this (by decide)

/-- A world where every decode yields a plain RGB image, no output path
exists yet, and every encode succeeds. -/
def wOk : World :=
  { decodeOf := fun _ => .ok ⟨"RGB", none, none⟩
    pathExists := fun _ => false
    encodeOf := fun _ _ => .ok () }

/-- Counterexample to C6 as stated: two successful conversions of the same
source into different destination directories resolve different output
paths, yet return the identical result value (`None`), so the success
result does not carry the resolved output path. -/
theorem claim_C6_counterexample :
    convert_one wOk ⟨["a.png"]⟩ "d1" false 80 6 false true none 1 = some none ∧
    convert_one wOk ⟨["a.png"]⟩ "d2" false 80 6 false true none 1 = some none ∧
    convert_one wOk ⟨["a.png"]⟩ "d1" false 80 6 false true none 1 =
      convert_one wOk ⟨["a.png"]⟩ "d2" false 80 6 false true none 1 ∧
    resolveOut wOk.pathExists "d1" (stemWithPref none (PyPath.stem ⟨["a.png"]⟩)) false 1 ≠
      resolveOut wOk.pathExists "d2" (stemWithPref none (PyPath.stem ⟨["a.png"]⟩)) false 1 :=
  ⟨by decide, by decide, by decide, by decide⟩

/-- Claim C6 (amended): a per-item conversion succeeds exactly when decode,
output resolution, and encode all succeed, and its success result is the
bare `None` — carrying no error text but also not the output path; every
failure result is a human-readable `Skip`/`Failed` reason string naming
the source file (converter.py lines 57-78). -/
theorem claim_C6_amended (w : World) (src : PyPath) (dstDir : String) (overwrite : Bool)
    (quality speed : Int) (lossless keepExif : Bool) (pref : Option String) (fuel : Nat) :
    (convert_one w src dstDir overwrite quality speed lossless keepExif pref fuel = some none ↔
      ∃ im out, w.decodeOf src = .ok im ∧
        resolveOut w.pathExists dstDir (stemWithPref pref src.stem) overwrite fuel = some out ∧
        w.encodeOf (save_avif (prepare_mode im) quality speed lossless keepExif) out = .ok ()) ∧
    (∀ msg, convert_one w src dstDir overwrite quality speed lossless keepExif pref fuel =
        some (some msg) →
      (∃ e, w.decodeOf src = .error e ∧ msg = "Skip " ++ src.name ++ ": " ++ e) ∨
      (∃ e, msg = "Failed " ++ src.name ++ ": " ++ e)) := by
  cases hd : w.decodeOf src with
  | error e =>
    refine ⟨by simp [convert_one, hd], fun msg hmsg => ?_⟩
    simp [convert_one, hd] at hmsg
    exact Or.inl ⟨e, rfl, hmsg.symm⟩
  | ok im =>
    cases hr : resolveOut w.pathExists dstDir (stemWithPref pref src.stem) overwrite fuel with
    | none =>
      refine ⟨by simp [convert_one, hd, hr], fun msg hmsg => ?_⟩
      simp [convert_one, hd, hr] at hmsg
    | some out =>
      cases he : w.encodeOf (save_avif (prepare_mode im) quality speed lossless keepExif) out with
      | ok u =>
        refine ⟨?_, fun msg hmsg => ?_⟩
        · simp only [convert_one, hd, hr, he]
          constructor
          · intro
            exact ⟨im, out, rfl, rfl, by rw [he]⟩
          · intro
            trivial
        · simp [convert_one, hd, hr, he] at hmsg
      | error e =>
        refine ⟨by simp [convert_one, hd, hr, he], fun msg hmsg => ?_⟩
        simp [convert_one, hd, hr, he] at hmsg
        exact Or.inr ⟨e, hmsg.symm⟩

/-- A world where every decode fails with the exception text `truncated`. -/
def wBad : World :=
  { decodeOf := fun _ => .error "truncated"
    pathExists := fun _ => false
    encodeOf := fun _ _ => .ok () }

/-- Witness for the amended C6: a failing decode yields the reason string
`Skip a.png: truncated`, recognized by the amended theorem. -/
theorem claim_C6_witness :
    convert_one wBad ⟨["a.png"]⟩ "d" false 80 6 false true none 1 =
      some (some "Skip a.png: truncated") ∧
    ((∃ e, wBad.decodeOf ⟨["a.png"]⟩ = .error e ∧
        ("Skip a.png: truncated" : String) = "Skip " ++ PyPath.name ⟨["a.png"]⟩ ++ ": " ++ e) ∨
      (∃ e, ("Skip a.png: truncated" : String) =
        "Failed " ++ PyPath.name ⟨["a.png"]⟩ ++ ": " ++ e)) :=
  ⟨by decide,
   (claim_C6_amended wBad ⟨["a.png"]⟩ "d" false 80 6 false true none 1).2
     "Skip a.png: truncated" (by decide)⟩

/-- The value `convert_one` hands back to the batch loop for one item,
assuming the collision probe terminated. -/
def itemResult (w : World) (dstDir : String) (overwrite : Bool) (quality speed : Int)
    (lossless keepExif : Bool) (pref : Option String) (fuel : Nat) (p : PyPath) :
    Option String :=
  (convert_one w p dstDir overwrite quality speed lossless keepExif pref fuel).getD none

/-- Shifting the starting counter through a progress trace. -/
lemma range_shift_map (total n i : Nat) :
    (List.range (n+1)).map (fun j => (i + j, total)) =
      (i, total) :: (List.range n).map (fun j => (i + 1 + j, total)) := by
  rw [List.range_succ_eq_map, List.map_cons, List.map_map]
  refine congrArg₂ List.cons (by simp) ?_
  apply List.map_congr_left
  intro a _
  simp only [Function.comp_apply, Prod.mk.injEq, and_true]
  omega

/-- Closed form of the batch loop when every item's conversion terminates:
the loop runs over the whole list, records one progress emission per item,
collects one result per item in order, and counts the failures. -/
lemma runBatch_spec (w : World) (dstDir : String) (overwrite : Bool) (quality speed : Int)
    (lossless keepExif : Bool) (pref : Option String) (fuel total : Nat)
    (items : List PyPath) :
    ∀ i : Nat, (∀ p ∈ items,
        convert_one w p dstDir overwrite quality speed lossless keepExif pref fuel ≠ none) →
      runBatch w dstDir overwrite quality speed lossless keepExif pref fuel total items i =
        some ⟨items.countP (fun p =>
            (itemResult w dstDir overwrite quality speed lossless keepExif pref fuel p).isSome),
          (List.range items.length).map (fun j => (i + j, total)),
          items.map (itemResult w dstDir overwrite quality speed lossless keepExif pref fuel)⟩ := by
  induction items with
  | nil =>
    intro i H
    simp [runBatch]
  | cons item rest ih =>
    intro i H
    cases hres : convert_one w item dstDir overwrite quality speed lossless keepExif pref fuel with
    | none => exact absurd hres (H item (List.mem_cons_self _ _))
    | some res =>
      have hr := ih (i+1) (fun p hp => H p (List.mem_cons_of_mem _ hp))
      have hitem : itemResult w dstDir overwrite quality speed lossless keepExif pref fuel item
          = res := by
        simp [itemResult, hres]
      simp only [runBatch, hres, hr, List.length_cons, List.countP_cons, List.map_cons,
        range_shift_map, hitem, Option.some.injEq, BatchOut.mk.injEq]
      refine ⟨by omega, by trivial, by trivial⟩

/-- Claim C1: every per-item decode/encode exception is captured inside
`convert_one` as a failure message naming the source file; the batch loop
runs over the full list, yields exactly one result per candidate in order,
and the final summary satisfies succeeded + failed = attempted
(converter.py lines 57-78 and 236-244). -/
theorem claim_C1 (w : World) (dstDir : String) (overwrite : Bool) (quality speed : Int)
    (lossless keepExif : Bool) (pref : Option String) (fuel : Nat) (items : List PyPath)
    (H : ∀ p ∈ items,
      convert_one w p dstDir overwrite quality speed lossless keepExif pref fuel ≠ none) :
    (∀ p e, w.decodeOf p = .error e →
      convert_one w p dstDir overwrite quality speed lossless keepExif pref fuel =
        some (some ("Skip " ++ p.name ++ ": " ++ e))) ∧
    (∀ p im out e, w.decodeOf p = .ok im →
      resolveOut w.pathExists dstDir (stemWithPref pref p.stem) overwrite fuel = some out →
      w.encodeOf (save_avif (prepare_mode im) quality speed lossless keepExif) out = .error e →
      convert_one w p dstDir overwrite quality speed lossless keepExif pref fuel =
        some (some ("Failed " ++ p.name ++ ": " ++ e))) ∧
    ∃ out : BatchOut,
      worker w items dstDir overwrite quality speed lossless keepExif pref fuel = some out ∧
      out.results = items.map (itemResult w dstDir overwrite quality speed lossless keepExif pref fuel) ∧
      out.results.length = items.length ∧
      out.errors = items.countP (fun p =>
        (itemResult w dstDir overwrite quality speed lossless keepExif pref fuel p).isSome) ∧
      out.errors ≤ items.length ∧
      (summary items.length out.errors).1 + (summary items.length out.errors).2 =
        items.length := by
  refine ⟨fun p e hd => by simp [convert_one, hd],
    fun p im out e hd hrr hee => by simp [convert_one, hd, hrr, hee], ?_⟩
  refine ⟨_, runBatch_spec w dstDir overwrite quality speed lossless keepExif pref fuel
    items.length items 1 H, rfl, by simp, rfl, ?_, ?_⟩
  · exact List.countP_le_length _
  · have hle : items.countP (fun p =>
        (itemResult w dstDir overwrite quality speed lossless keepExif pref fuel p).isSome) ≤
        items.length := List.countP_le_length _
    simp only [summary]
    omega

/-- Claim C9: over `n` candidates the progress notification is emitted
exactly `n` times, once per completed item in discovery order, the `i`-th
emission carrying the 1-based count `i` and the total `n`
(converter.py lines 236-244). -/
theorem claim_C9 (w : World) (dstDir : String) (overwrite : Bool) (quality speed : Int)
    (lossless keepExif : Bool) (pref : Option String) (fuel : Nat) (items : List PyPath)
    (H : ∀ p ∈ items,
      convert_one w p dstDir overwrite quality speed lossless keepExif pref fuel ≠ none) :
    ∃ out : BatchOut,
      worker w items dstDir overwrite quality speed lossless keepExif pref fuel = some out ∧
      out.progress.length = items.length ∧
      ∀ j (hj : j < out.progress.length), out.progress[j] = (j + 1, items.length) := by
  refine ⟨_, runBatch_spec w dstDir overwrite quality speed lossless keepExif pref fuel
    items.length items 1 H, by simp, ?_⟩
  intro j hj
  simp only [List.length_map, List.length_range] at hj
  simp only [List.getElem_map, List.getElem_range]
  rw [Nat.add_comm]

/-- A world for the batch witnesses: decoding `bad.png` raises, every other
decode succeeds, no output path exists, every encode succeeds. -/
def wMix : World :=
  { decodeOf := fun p =>
      if p.name = "bad.png" then .error "truncated" else .ok ⟨"RGB", none, none⟩
    pathExists := fun _ => false
    encodeOf := fun _ _ => .ok () }

/-- A batch with a corrupt file between two valid ones. -/
def itemsW : List PyPath := [⟨["a.png"]⟩, ⟨["bad.png"]⟩, ⟨["b.png"]⟩]

/-- Witness for C1: on the mixed batch, the run completes with one result
per item and a coherent summary. -/
theorem claim_C1_witness :
    ∃ out : BatchOut,
      worker wMix itemsW "out" false 80 6 false true none 1 = some out ∧
      out.results = itemsW.map (itemResult wMix "out" false 80 6 false true none 1) ∧
      out.results.length = itemsW.length ∧
      out.errors = itemsW.countP (fun p =>
        (itemResult wMix "out" false 80 6 false true none 1 p).isSome) ∧
      out.errors ≤ itemsW.length ∧
      (summary itemsW.length out.errors).1 + (summary itemsW.length out.errors).2 =
        itemsW.length :=
  (claim_C1 wMix "out" false 80 6 false true none 1 itemsW (by decide)).2.2

/-- Witness for C9: on the mixed batch the three progress emissions are
`(1,3)`, `(2,3)`, `(3,3)` in order, the failing item included. -/
theorem claim_C9_witness :
    ∃ out : BatchOut,
      worker wMix itemsW "out" false 80 6 false true none 1 = some out ∧
      out.progress.length = itemsW.length ∧
      ∀ j (hj : j < out.progress.length), out.progress[j] = (j + 1, itemsW.length) :=
  claim_C9 wMix "out" false 80 6 false true none 1 itemsW (by decide)

/-- Witness for C4 at a concrete image carrying both an EXIF payload and
an ICC profile, with keep-metadata enabled. -/
theorem claim_C4_witness :
    ((save_avif ⟨"RGB", some [1], some [2]⟩ 80 6 false true).exif = some [1] ↔
      (true = true ∧ (PILImage.mk "RGB" (some [1]) (some [2])).exif = some [1])) ∧
    (save_avif ⟨"RGB", some [1], some [2]⟩ 80 6 false true).icc_profile =
      (PILImage.mk "RGB" (some [1]) (some [2])).icc_profile :=
  ⟨(claim_C4 ⟨"RGB", some [1], some [2]⟩ 80 6 false true).1 [1],
   (claim_C4 ⟨"RGB", some [1], some [2]⟩ 80 6 false true).2.1⟩
